import Mathlib

/-
  Verification of the DriveAnalizer monitoring core (src-tauri).

  Shallow embedding of:
    - src/src-tauri/src/process_monitor.rs  (ProcessMonitor: update,
      get_top_processes, get_deltas_for_db, reset)
    - src/src-tauri/src/monitor.rs          (init_monitoring tick loop)
    - src/src-tauri/src/db.rs               (update_process_history,
      insert_stats_batch commit semantics)

  Modeling conventions:
    - Rust u64 counters are modeled as Nat.  `saturating_sub` on u64 is
      exactly truncated Nat subtraction for values below 2^64; `+` and
      `saturating_add` are Nat addition (byte counters in this program
      are physical I/O totals, far below 2^64; Rust `+` would panic in
      debug builds on overflow rather than produce a value).
    - HashMap / HashSet are modeled as association lists / lists with
      explicit lookup, upsert (entry().or_insert + mutate), and remove
      operations.  Iteration order of a HashMap is arbitrary; every
      theorem below is stated so that it only depends on per-key results,
      or on sums that are order independent.
    - f64 fields (timestamp, idle_time, queue_depth) carry no claim
      content and are omitted from the Sample record.
    - Database writes are modeled as pure functions on the table contents;
      a transactional batch insert appends all rows on success and leaves
      the table unchanged on failure.
-/

/-- Association list lookup, modeling HashMap::get: returns the value at
the first matching key. -/
def alookup {K V : Type} [DecidableEq K] (k : K) : List (K × V) → Option V
  | [] => none
  | x :: rest => if x.1 = k then some x.2 else alookup k rest

/-- Association list upsert, modeling HashMap entry().or_insert + in-place
mutation: if the key is present its value is replaced by `f (some old)`,
otherwise `(k, f none)` is appended. -/
def aupsert {K V : Type} [DecidableEq K] (k : K) (f : Option V → V) :
    List (K × V) → List (K × V)
  | [] => [(k, f none)]
  | x :: rest => if x.1 = k then (k, f (some x.2)) :: rest else x :: aupsert k f rest

/-- Association list removal, modeling HashMap::remove. -/
def aremove {K V : Type} [DecidableEq K] (k : K) : List (K × V) → List (K × V)
  | [] => []
  | x :: rest => if x.1 = k then aremove k rest else x :: aremove k rest

/-- Mirror of process_monitor.rs ProcessIOAccumulator: per-pid accumulated
I/O with the process's last known name. -/
structure ProcessIOAccumulator where
  name : String
  read_bytes : Nat
  write_bytes : Nat
  deriving DecidableEq, Repr

/-- Mirror of models.rs ProcessIOStat (serialized per-process row of the
top-processes report). -/
structure ProcessIOStat where
  pid : Nat
  name : String
  exe_path : Option String
  read_bytes : Nat
  write_bytes : Nat
  total_bytes : Nat
  deriving DecidableEq, Repr

/-- One row of a sysinfo process snapshot: pid, name, exe path and the two
disk_usage byte counters (cumulative counters for ProcessMonitor::update,
per-refresh figures for the monitor.rs loop). -/
structure ProcSnap where
  pid : Nat
  name : String
  exe_path : Option String
  read_bytes : Nat
  written_bytes : Nat
  deriving DecidableEq, Repr

/-- Mirror of the ProcessMonitor struct state (process_monitor.rs lines
19-25): dead_process_history, last_process_snapshot (the persistence
checkpoint), the shared per-pid accumulators, and last_seen_by_pid (the
per-pid cumulative-counter baseline). -/
structure PMState where
  dead_process_history : List (String × (Nat × Nat))
  last_process_snapshot : List (String × (Nat × Nat))
  accumulators : List (Nat × ProcessIOAccumulator)
  last_seen_by_pid : List (Nat × (Nat × Nat))
  deriving DecidableEq, Repr

/-- Mirror of ProcessMonitor::reset (process_monitor.rs lines 38-45):
clears all four maps. -/
def pmReset (_s : PMState) : PMState := ⟨[], [], [], []⟩

/-- Body of the per-process loop of ProcessMonitor::update
(process_monitor.rs lines 60-99), acting on
(last_seen_by_pid, accumulators, tick_read_delta, tick_write_delta). -/
def pmUpdateEntry
    (st : List (Nat × (Nat × Nat)) × List (Nat × ProcessIOAccumulator) × Nat × Nat)
    (e : ProcSnap) :
    List (Nat × (Nat × Nat)) × List (Nat × ProcessIOAccumulator) × Nat × Nat :=
  let ls := st.1
  let acc := st.2.1
  let tr := st.2.2.1
  let tw := st.2.2.2
  match alookup e.pid ls with
  | some prev =>
      let r := e.read_bytes - prev.1
      let w := e.written_bytes - prev.2
      let ls' := aupsert e.pid (fun _ => (e.read_bytes, e.written_bytes)) ls
      let acc' := aupsert e.pid (fun o =>
        let a := o.getD ⟨e.name, 0, 0⟩
        let a' : ProcessIOAccumulator := ⟨e.name, a.read_bytes, a.write_bytes⟩
        if 0 < r ∨ 0 < w then
          ⟨a'.name, a'.read_bytes + r, a'.write_bytes + w⟩
        else a') acc
      (ls', acc', (if 0 < r ∨ 0 < w then tr + r else tr),
        (if 0 < r ∨ 0 < w then tw + w else tw))
  | none =>
      let ls' := ls ++ [(e.pid, (e.read_bytes, e.written_bytes))]
      let acc' := aupsert e.pid (fun o =>
        let a := o.getD ⟨e.name, 0, 0⟩
        (⟨e.name, a.read_bytes, a.write_bytes⟩ : ProcessIOAccumulator)) acc
      (ls', acc', tr, tw)

/-- Dead-process handling of ProcessMonitor::update (process_monitor.rs
lines 101-118): for each dead pid, drop its baseline, remove its
accumulator, and fold nonzero accumulated bytes into dead_process_history
keyed by the last known name. -/
def pmFoldDead (dead : List (String × (Nat × Nat))) (ls : List (Nat × (Nat × Nat)))
    (acc : List (Nat × ProcessIOAccumulator)) :
    List Nat → List (String × (Nat × Nat)) × List (Nat × (Nat × Nat)) ×
      List (Nat × ProcessIOAccumulator)
  | [] => (dead, ls, acc)
  | p :: rest =>
      let ls' := aremove p ls
      match alookup p acc with
      | some a =>
          let acc' := aremove p acc
          let dead' :=
            if 0 < a.read_bytes ∨ 0 < a.write_bytes then
              aupsert a.name (fun o =>
                let d := o.getD (0, 0)
                (d.1 + a.read_bytes, d.2 + a.write_bytes)) dead
            else dead
          pmFoldDead dead' ls' acc' rest
      | none => pmFoldDead dead ls' acc rest

/-- Mirror of ProcessMonitor::update (process_monitor.rs lines 47-122):
returns the new state together with this tick's (read, write) deltas. -/
def pmUpdate (s : PMState) (snap : List ProcSnap) : PMState × Nat × Nat :=
  let active := snap.map (fun e => e.pid)
  let st := snap.foldl pmUpdateEntry (s.last_seen_by_pid, s.accumulators, 0, 0)
  let deadPids := (st.1.map Prod.fst).filter (fun p => decide (¬ p ∈ active))
  let r := pmFoldDead s.dead_process_history st.1 st.2.1 deadPids
  (⟨r.1, s.last_process_snapshot, r.2.2, r.2.1⟩, st.2.2.1, st.2.2.2)

/-- First grouping loop of ProcessMonitor::get_top_processes
(process_monitor.rs lines 127-129): every dead-process ledger entry is
inserted into the grouped map (no exe path). -/
def groupedInit (dead : List (String × (Nat × Nat))) :
    List (String × (Option String × Nat × Nat)) :=
  dead.foldl (fun g x => aupsert x.1 (fun _ => (none, x.2.1, x.2.2)) g) []

/-- Second grouping loop of get_top_processes (process_monitor.rs lines
131-145): live accumulators of current processes are summed in by current
process name; entries with zero read and write bytes are skipped. -/
def groupedLive (acc : List (Nat × ProcessIOAccumulator)) (snap : List ProcSnap)
    (g : List (String × (Option String × Nat × Nat))) :
    List (String × (Option String × Nat × Nat)) :=
  snap.foldl (fun g e =>
    match alookup e.pid acc with
    | some a =>
        if a.read_bytes = 0 ∧ a.write_bytes = 0 then g
        else
          aupsert e.name (fun o =>
            match o with
            | some t => (t.1, t.2.1 + a.read_bytes, t.2.2 + a.write_bytes)
            | none => (e.exe_path, a.read_bytes, a.write_bytes)) g
    | none => g) g

/-- Name-keyed grouping of ProcessMonitor::get_top_processes
(process_monitor.rs lines 125-145). -/
def groupedStats (dead : List (String × (Nat × Nat)))
    (acc : List (Nat × ProcessIOAccumulator)) (snap : List ProcSnap) :
    List (String × (Option String × Nat × Nat)) :=
  groupedLive acc snap (groupedInit dead)

/-- Ungrouped stat rows of get_top_processes (process_monitor.rs lines
147-157), before sorting and truncation; total_bytes = read + write. -/
def rawStats (dead : List (String × (Nat × Nat)))
    (acc : List (Nat × ProcessIOAccumulator)) (snap : List ProcSnap) :
    List ProcessIOStat :=
  (groupedStats dead acc snap).map (fun x =>
    ⟨0, x.1, x.2.1, x.2.2.1, x.2.2.2, x.2.2.1 + x.2.2.2⟩)

/-- Stat rows of get_top_processes sorted descending by total_bytes
(process_monitor.rs line 159; stable sort, matching Vec::sort_by). -/
def sortedStats (dead : List (String × (Nat × Nat)))
    (acc : List (Nat × ProcessIOAccumulator)) (snap : List ProcSnap) :
    List ProcessIOStat :=
  (rawStats dead acc snap).insertionSort (fun a b => b.total_bytes ≤ a.total_bytes)

/-- Read bytes of the synthesized "Others" entry (process_monitor.rs lines
162-171): the grand total over all rows, computed before truncation, minus
the total over the 50 kept rows (saturating subtraction). -/
def othersRead (dead : List (String × (Nat × Nat)))
    (acc : List (Nat × ProcessIOAccumulator)) (snap : List ProcSnap) : Nat :=
  ((sortedStats dead acc snap).map (fun s => s.read_bytes)).sum -
    (((sortedStats dead acc snap).take 50).map (fun s => s.read_bytes)).sum

/-- Write bytes of the synthesized "Others" entry (process_monitor.rs lines
163-172). -/
def othersWrite (dead : List (String × (Nat × Nat)))
    (acc : List (Nat × ProcessIOAccumulator)) (snap : List ProcSnap) : Nat :=
  ((sortedStats dead acc snap).map (fun s => s.write_bytes)).sum -
    (((sortedStats dead acc snap).take 50).map (fun s => s.write_bytes)).sum

/-- Mirror of ProcessMonitor::get_top_processes (process_monitor.rs lines
124-187): sort descending by total_bytes; when more than 50 rows exist,
truncate to 50 and synthesize one "Others" entry holding the remainder,
pushed only when it is nonzero. -/
def getTopProcesses (dead : List (String × (Nat × Nat)))
    (acc : List (Nat × ProcessIOAccumulator)) (snap : List ProcSnap) :
    List ProcessIOStat :=
  let sorted := sortedStats dead acc snap
  if 50 < sorted.length then
    let kept := sorted.take 50
    if 0 < othersRead dead acc snap ∨ 0 < othersWrite dead acc snap then
      kept ++ [⟨0, "Others", none, othersRead dead acc snap,
        othersWrite dead acc snap,
        othersRead dead acc snap + othersWrite dead acc snap⟩]
    else kept
  else sorted

/-- Per-accumulator step of the current-totals aggregation of
get_deltas_for_db (process_monitor.rs lines 196-200). -/
def currentTotalsStep (m : List (String × (Nat × Nat)))
    (x : Nat × ProcessIOAccumulator) : List (String × (Nat × Nat)) :=
  aupsert x.2.name (fun o =>
    let d := o.getD (0, 0)
    (d.1 + x.2.read_bytes, d.2 + x.2.write_bytes)) m

/-- Per-name current totals of ProcessMonitor::get_deltas_for_db
(process_monitor.rs lines 192-201): the dead-process ledger cloned, plus
every live accumulator value added under its stored name. -/
def currentTotals (s : PMState) : List (String × (Nat × Nat)) :=
  s.accumulators.foldl currentTotalsStep s.dead_process_history

/-- Per-name body of the flush loop of get_deltas_for_db
(process_monitor.rs lines 203-216), acting on
(last_process_snapshot, deltas). -/
def flushNameStep
    (st : List (String × (Nat × Nat)) × List (String × (Nat × Nat)))
    (x : String × (Nat × Nat)) :
    List (String × (Nat × Nat)) × List (String × (Nat × Nat)) :=
  let chk := (alookup x.1 st.1).getD (0, 0)
  let snap :=
    match alookup x.1 st.1 with
    | some _ => st.1
    | none => st.1 ++ [(x.1, ((0 : Nat), (0 : Nat)))]
  let rd := x.2.1 - chk.1
  let wd := x.2.2 - chk.2
  if 0 < rd ∨ 0 < wd then
    (aupsert x.1 (fun _ => (x.2.1, x.2.2)) snap, aupsert x.1 (fun _ => (rd, wd)) st.2)
  else (snap, st.2)

/-- Mirror of ProcessMonitor::get_deltas_for_db (process_monitor.rs lines
189-219): returns the name-keyed deltas since the last persistence
checkpoint and the state with the advanced checkpoint. -/
def getDeltasForDb (s : PMState) : List (String × (Nat × Nat)) × PMState :=
  let st := (currentTotals s).foldl flushNameStep (s.last_process_snapshot, [])
  (st.2, ⟨s.dead_process_history, st.1, s.accumulators, s.last_seen_by_pid⟩)

/-- Mirror of db.rs update_process_history (lines 252-275): additive upsert
of each name-keyed delta into the process_history table
(read_bytes = read_bytes + excluded.read_bytes on conflict). -/
def update_process_history (db : List (String × (Nat × Nat)))
    (stats : List (String × (Nat × Nat))) : List (String × (Nat × Nat)) :=
  stats.foldl (fun d x =>
    aupsert x.1 (fun o =>
      let p := o.getD (0, 0)
      (p.1 + x.2.1, p.2 + x.2.2)) d) db

/-- Mirror of models.rs DiskStat restricted to its integer byte fields
(timestamp, idle_time and queue_depth are f64 and carry no claim content). -/
structure DiskStat where
  read_bytes : Nat
  write_bytes : Nat
  read_speed : Nat
  write_speed : Nat
  deriving DecidableEq, Repr

/-- State of the monitor.rs init_monitoring loop (lines 29-43), together
with the two database tables it can write (disk_stats rows and the
process_history per-name ledger) and a stopped flag for the loop break. -/
structure MonState where
  buffer : List DiskStat
  known_pids : List Nat
  session_read_bytes : Nat
  session_write_bytes : Nat
  tick_count : Nat
  dead_process_history : List (String × (Nat × Nat))
  accumulators : List (Nat × ProcessIOAccumulator)
  db_disk_stats : List DiskStat
  db_process_history : List (String × (Nat × Nat))
  stopped : Bool
  deriving DecidableEq, Repr

/-- Per-tick external input of the monitor loop: the two control flags as
observed this tick, the sysinfo process snapshot (disk_usage figures are
the per-refresh deltas sysinfo reports), and whether a DB batch insert
attempted this tick would succeed. -/
structure TickInput where
  shutdown : Bool
  reset : Bool
  procs : List ProcSnap
  flush_ok : Bool
  deriving DecidableEq, Repr

/-- Body of the per-process loop of monitor.rs (lines 96-125), acting on
(known_pids, accumulators, current_read_speed, current_write_speed).
A pid not yet in known_pids is skipped for this tick (baseline
establishment); otherwise its disk_usage figures are added to the tick
speeds and to its accumulator. -/
def monProcStep
    (st : List Nat × List (Nat × ProcessIOAccumulator) × Nat × Nat)
    (e : ProcSnap) :
    List Nat × List (Nat × ProcessIOAccumulator) × Nat × Nat :=
  let kp := st.1
  let acc := st.2.1
  let sr := st.2.2.1
  let sw := st.2.2.2
  if e.pid ∈ kp then
    let acc' := aupsert e.pid (fun o =>
      let a := o.getD ⟨e.name, 0, 0⟩
      (⟨a.name, a.read_bytes + e.read_bytes, a.write_bytes + e.written_bytes⟩ :
        ProcessIOAccumulator)) acc
    (kp, acc', sr + e.read_bytes, sw + e.written_bytes)
  else
    let acc' := aupsert e.pid (fun o =>
      o.getD ⟨e.name, 0, 0⟩) acc
    (e.pid :: kp, acc', sr, sw)

/-- Dead-process handling of monitor.rs (lines 128-142): accumulator keys
absent from the active pid set are removed and their nonzero totals folded
into dead_process_history. -/
def monFoldDead (dead : List (String × (Nat × Nat)))
    (acc : List (Nat × ProcessIOAccumulator)) :
    List Nat → List (String × (Nat × Nat)) × List (Nat × ProcessIOAccumulator)
  | [] => (dead, acc)
  | p :: rest =>
      match alookup p acc with
      | some a =>
          let acc' := aremove p acc
          let dead' :=
            if 0 < a.read_bytes ∨ 0 < a.write_bytes then
              aupsert a.name (fun o =>
                let d := o.getD (0, 0)
                (d.1 + a.read_bytes, d.2 + a.write_bytes)) dead
            else dead
          monFoldDead dead' acc' rest
      | none => monFoldDead dead acc rest

/-- Database batching step of monitor.rs (lines 237-243): push the sample,
and at 60 or more buffered samples attempt one batch insert and then clear
the buffer.  Returns (new buffer, new disk_stats table).  Note that the
clear is unconditional: it happens whether or not the insert succeeded. -/
def monitorBufferStep (buffer : List DiskStat) (stat : DiskStat)
    (flush_ok : Bool) (db : List DiskStat) : List DiskStat × List DiskStat :=
  let b := buffer ++ [stat]
  if 60 ≤ b.length then ([], if flush_ok then db ++ b else db)
  else (b, db)

/-- Sampling part of a monitor.rs loop iteration (lines 62-245, the path
taken when the shutdown flag is not set): reset handling, process refresh
and accumulation, dead-process folding, session totals, sample
construction and database batching.  Returns the new state and this
tick's (read, write) speeds, i.e. the per-tick deltas that feed
SessionTotals. -/
def monitorSample (s : MonState) (inp : TickInput) : MonState × Nat × Nat :=
  let s1 :=
      if inp.reset then
        { s with
            session_read_bytes := 0
            session_write_bytes := 0
            known_pids := []
            buffer := []
            dead_process_history := [] }
      else s
    let active := inp.procs.map (fun e => e.pid)
    let st := inp.procs.foldl monProcStep (s1.known_pids, s1.accumulators, 0, 0)
    let deadPids := (st.2.1.map Prod.fst).filter (fun p => decide (¬ p ∈ active))
    let fd := monFoldDead s1.dead_process_history st.2.1 deadPids
    let kp2 := st.1.filter (fun p => decide (p ∈ active))
    let sr := s1.session_read_bytes + st.2.2.1
    let sw := s1.session_write_bytes + st.2.2.2
    let stat : DiskStat := ⟨sr, sw, st.2.2.1, st.2.2.2⟩
    let bs := monitorBufferStep s1.buffer stat inp.flush_ok s1.db_disk_stats
    ({ s1 with
        buffer := bs.1
        known_pids := kp2
        session_read_bytes := sr
        session_write_bytes := sw
        tick_count := s1.tick_count + 1
        dead_process_history := fd.1
        accumulators := fd.2
        db_disk_stats := bs.2 },
      st.2.2.1, st.2.2.2)

/-- One iteration of the monitor.rs loop (lines 45-246).  A tick that
observes the shutdown flag flushes the buffer (best effort: the rows are
appended only when the batch insert succeeds) and stops, producing no
delta; any other tick runs monitorSample. -/
def monitorTick (s : MonState) (inp : TickInput) : MonState × Option (Nat × Nat) :=
  if inp.shutdown then
    let db' :=
      if s.buffer.isEmpty then s.db_disk_stats
      else if inp.flush_ok then s.db_disk_stats ++ s.buffer else s.db_disk_stats
    ({ s with db_disk_stats := db', stopped := true }, none)
  else
    ((monitorSample s inp).1, some (monitorSample s inp).2)

/-- Run of the monitor loop over a list of tick inputs, collecting the
per-tick (read, write) deltas actually produced.  A tick that observes the
shutdown flag is the last one; once stopped, no further input is consumed
(the loop has exited). -/
def runMonitor (s : MonState) : List TickInput → MonState × List (Nat × Nat)
  | [] => (s, [])
  | i :: rest =>
      if s.stopped then (s, [])
      else
        match monitorTick s i with
        | (s', none) => (s', [])
        | (s', some d) =>
            let r := runMonitor s' rest
            (r.1, d :: r.2)

/-- Initial state of the monitor loop (monitor.rs lines 29-43 and the empty
accumulator map created in lib.rs), with empty database tables. -/
def initMonState : MonState := ⟨[], [], 0, 0, 0, [], [], [], [], false⟩

/-- Tick inputs for the C1 witness: a reset tick followed by a plain tick,
each with one active process. -/
def c1Tick1 : TickInput := ⟨false, true, [⟨1, "a", none, 10, 5⟩], true⟩

def c1Tick2 : TickInput := ⟨false, false, [⟨1, "a", none, 7, 3⟩], true⟩

/-- Sample record and 59-sample buffer used by the C7 and C8 theorems. -/
def sampleStat : DiskStat := ⟨1, 1, 1, 1⟩

def buf59 : List DiskStat := List.replicate 59 sampleStat

/-- Pre-reset monitor state for C8: pid 7 has accumulated (100, 50) bytes,
session totals and the dead ledger are nonempty. -/
def c8State : MonState :=
  ⟨[⟨100, 50, 10, 5⟩], [7], 100, 50, 3, [("beta", (1, 2))],
    [(7, ⟨"alpha", 100, 50⟩)], [], [], false⟩

/-- Reset tick for C8: the reset flag is observed while pid 7 is still
alive with zero I/O this tick. -/
def c8Input : TickInput := ⟨false, true, [⟨7, "alpha", none, 0, 0⟩], true⟩

def c8After : MonState := (monitorTick c8State c8Input).1

/-- Pre-shutdown monitor state for C9: one buffered sample and un-persisted
per-name totals ("gamma" has accumulated (5, 3) bytes); both database
tables are empty. -/
def c9State : MonState :=
  ⟨[⟨5, 3, 5, 3⟩], [3], 5, 3, 1, [], [(3, ⟨"gamma", 5, 3⟩)], [], [], false⟩

def c9Input : TickInput := ⟨true, false, [], true⟩

def c9After : MonState := (monitorTick c9State c9Input).1

/-- Dead-process ledger with 51 distinct names used by the C5 witness. -/
def c5Dead : List (String × (Nat × Nat)) :=
  (List.range 51).map (fun i => (Nat.repr i, (1, 0)))

/-- Monitor state for the C6 witness: name "n" has a dead-ledger total of
(4, 1) and a live accumulator of (6, 2) under pid 2, so its current total
is (10, 3); the checkpoint stands at (1, 0). -/
def c6State : PMState :=
  ⟨[("n", (4, 1))], [("n", (1, 0))], [(2, ⟨"n", 6, 2⟩)], []⟩

theorem aupsert_cons_self {K V : Type} [DecidableEq K] (k : K) (f : Option V → V)
    (x : K × V) (rest : List (K × V)) (h : x.1 = k) :
    aupsert k f (x :: rest) = (k, f (some x.2)) :: rest := by
  simp [aupsert, h]

theorem aupsert_cons_ne {K V : Type} [DecidableEq K] (k : K) (f : Option V → V)
    (x : K × V) (rest : List (K × V)) (h : ¬ x.1 = k) :
    aupsert k f (x :: rest) = x :: aupsert k f rest := by
  simp [aupsert, h]

theorem alookup_aupsert_self {K V : Type} [DecidableEq K] (k : K) (f : Option V → V)
    (l : List (K × V)) : alookup k (aupsert k f l) = some (f (alookup k l)) := by
  induction l with
  | nil => simp [alookup, aupsert]
  | cons x rest ih =>
      by_cases h : x.1 = k
      · simp [alookup, aupsert, h]
      · simp [alookup, aupsert, h, ih]

theorem alookup_aupsert_ne {K V : Type} [DecidableEq K] (k k' : K) (f : Option V → V)
    (l : List (K × V)) (h : k' ≠ k) : alookup k (aupsert k' f l) = alookup k l := by
  induction l with
  | nil => simp [alookup, aupsert, h]
  | cons x rest ih =>
      by_cases hx : x.1 = k'
      · simp [alookup, aupsert, hx, h]
      · simp only [aupsert, if_neg hx]
        by_cases hk : x.1 = k
        · simp [alookup, hk]
        · simp [alookup, hk, ih]

theorem alookup_aremove_ne {K V : Type} [DecidableEq K] (k k' : K)
    (l : List (K × V)) (h : k' ≠ k) : alookup k (aremove k' l) = alookup k l := by
  induction l with
  | nil => simp [aremove]
  | cons x rest ih =>
      by_cases hx : x.1 = k'
      · have hk : x.1 ≠ k := by rw [hx]; exact h
        simp only [aremove, if_pos hx, alookup, if_neg hk]
        exact ih
      · simp only [aremove, if_neg hx]
        by_cases hk : x.1 = k
        · simp [alookup, hk]
        · simp [alookup, hk, ih]

theorem alookup_append {K V : Type} [DecidableEq K] (k : K) (l₁ l₂ : List (K × V)) :
    alookup k (l₁ ++ l₂) =
      match alookup k l₁ with
      | some v => some v
      | none => alookup k l₂ := by
  induction l₁ with
  | nil => simp [alookup]
  | cons x rest ih =>
      by_cases hx : x.1 = k
      · simp [alookup, hx]
      · simp [alookup, hx, ih]

theorem alookup_append_of_none {K V : Type} [DecidableEq K] (k : K)
    (l₁ l₂ : List (K × V)) (h : alookup k l₁ = none) :
    alookup k (l₁ ++ l₂) = alookup k l₂ := by
  rw [alookup_append, h]

theorem alookup_eq_none_iff {K V : Type} [DecidableEq K] (k : K) (l : List (K × V)) :
    alookup k l = none ↔ ∀ x ∈ l, x.1 ≠ k := by
  induction l with
  | nil => simp [alookup]
  | cons x rest ih =>
      by_cases hx : x.1 = k
      · simp [alookup, hx]
      · simp [alookup, hx, ih]

theorem mem_aupsert {K V : Type} [DecidableEq K] (k : K) (f : Option V → V)
    (l : List (K × V)) (x : K × V) :
    x ∈ aupsert k f l → x ∈ l ∨ ∃ o, x = (k, f o) := by
  induction l with
  | nil =>
      intro hx
      simp only [aupsert, List.mem_singleton] at hx
      exact Or.inr ⟨none, hx⟩
  | cons y rest ih =>
      intro hx
      simp only [aupsert] at hx
      by_cases hy : y.1 = k
      · rw [if_pos hy] at hx
        rcases List.mem_cons.mp hx with h | h
        · exact Or.inr ⟨some y.2, h⟩
        · exact Or.inl (List.mem_cons_of_mem _ h)
      · rw [if_neg hy] at hx
        rcases List.mem_cons.mp hx with h | h
        · exact Or.inl (h ▸ List.mem_cons_self _ _)
        · rcases ih h with h' | h'
          · exact Or.inl (List.mem_cons_of_mem _ h')
          · exact Or.inr h'

theorem mem_keys_aupsert {K V : Type} [DecidableEq K] (k a : K) (f : Option V → V)
    (l : List (K × V)) :
    a ∈ (aupsert k f l).map Prod.fst ↔ a ∈ l.map Prod.fst ∨ a = k := by
  induction l with
  | nil => simp [aupsert]
  | cons x rest ih =>
      by_cases hx : x.1 = k
      · rw [aupsert_cons_self k f x rest hx]
        simp only [List.map_cons, List.mem_cons, hx]
        tauto
      · rw [aupsert_cons_ne k f x rest hx]
        simp only [List.map_cons, List.mem_cons, ih]
        tauto

theorem keys_nodup_aupsert {K V : Type} [DecidableEq K] (k : K) (f : Option V → V)
    (l : List (K × V)) :
    (l.map Prod.fst).Nodup → ((aupsert k f l).map Prod.fst).Nodup := by
  induction l with
  | nil => intro _; simp [aupsert]
  | cons x rest ih =>
      intro h
      simp only [List.map_cons, List.nodup_cons] at h
      by_cases hx : x.1 = k
      · simp only [aupsert, if_pos hx, List.map_cons, List.nodup_cons]
        exact ⟨hx ▸ h.1, h.2⟩
      · simp only [aupsert, if_neg hx, List.map_cons, List.nodup_cons]
        refine ⟨fun hc => ?_, ih h.2⟩
        rw [mem_keys_aupsert] at hc
        rcases hc with hc | hc
        · exact h.1 hc
        · exact hx hc

theorem alookup_some_split {K V : Type} [DecidableEq K] {k : K} {v : V}
    (l : List (K × V)) :
    (l.map Prod.fst).Nodup → alookup k l = some v →
    ∃ l₁ l₂, l = l₁ ++ (k, v) :: l₂ ∧ (∀ x ∈ l₁, x.1 ≠ k) ∧ (∀ x ∈ l₂, x.1 ≠ k) := by
  induction l with
  | nil => intro _ h; simp [alookup] at h
  | cons x rest ih =>
      intro hnd h
      simp only [List.map_cons, List.nodup_cons] at hnd
      by_cases hx : x.1 = k
      · simp only [alookup, if_pos hx] at h
        injection h with hv
        refine ⟨[], rest, ?_, by simp, ?_⟩
        · have hxe : x = (k, v) := Prod.ext hx hv
          rw [hxe]
          rfl
        · intro y hy hyk
          exact hnd.1 (hx ▸ hyk ▸ List.mem_map_of_mem Prod.fst hy)
      · simp only [alookup, if_neg hx] at h
        rcases ih hnd.2 h with ⟨l₁, l₂, he, h₁, h₂⟩
        refine ⟨x :: l₁, l₂, by simp [he], ?_, h₂⟩
        intro y hy
        rcases List.mem_cons.mp hy with hy | hy
        · exact hy ▸ hx
        · exact h₁ y hy

theorem monitorSample_session_read (s : MonState) (i : TickInput) :
    (monitorSample s i).1.session_read_bytes =
      (if i.reset then 0 else s.session_read_bytes) + (monitorSample s i).2.1 := by
  by_cases hr : i.reset <;> simp [monitorSample, hr]

theorem monitorSample_session_write (s : MonState) (i : TickInput) :
    (monitorSample s i).1.session_write_bytes =
      (if i.reset then 0 else s.session_write_bytes) + (monitorSample s i).2.2 := by
  by_cases hr : i.reset <;> simp [monitorSample, hr]

theorem monitorSample_stopped (s : MonState) (i : TickInput) :
    (monitorSample s i).1.stopped = s.stopped := by
  by_cases hr : i.reset <;> simp [monitorSample, hr]

theorem monitorSample_db_history (s : MonState) (i : TickInput) :
    (monitorSample s i).1.db_process_history = s.db_process_history := by
  by_cases hr : i.reset <;> simp [monitorSample, hr]

theorem monitorTick_not_shutdown (s : MonState) (i : TickInput)
    (h : i.shutdown = false) :
    monitorTick s i = ((monitorSample s i).1, some (monitorSample s i).2) := by
  simp [monitorTick, h]

theorem monitorTick_shutdown (s : MonState) (i : TickInput)
    (h : i.shutdown = true) :
    monitorTick s i =
      ({ s with
          db_disk_stats :=
            if s.buffer.isEmpty then s.db_disk_stats
            else if i.flush_ok then s.db_disk_stats ++ s.buffer
            else s.db_disk_stats
          stopped := true }, none) := by
  simp [monitorTick, h]

theorem monitorTick_none_stopped (s : MonState) (i : TickInput)
    (h : (monitorTick s i).2 = none) : (monitorTick s i).1.stopped = true := by
  by_cases hs : i.shutdown
  · rw [monitorTick_shutdown s i hs]
  · rw [monitorTick_not_shutdown s i (by simp [hs])] at h
    simp at h

theorem runMonitor_stopped (s : MonState) (l : List TickInput)
    (h : s.stopped = true) : runMonitor s l = (s, []) := by
  cases l with
  | nil => rfl
  | cons i rest => simp [runMonitor, h]

theorem runMonitor_cons_step (s : MonState) (i : TickInput) (rest : List TickInput)
    (hs : s.stopped = false) (hi : i.shutdown = false) :
    runMonitor s (i :: rest) =
      ((runMonitor (monitorSample s i).1 rest).1,
        (monitorSample s i).2 :: (runMonitor (monitorSample s i).1 rest).2) := by
  simp [runMonitor, hs, monitorTick_not_shutdown s i hi]

theorem runMonitor_append (l₁ l₂ : List TickInput) : ∀ s : MonState,
    runMonitor s (l₁ ++ l₂) =
      ((runMonitor (runMonitor s l₁).1 l₂).1,
        (runMonitor s l₁).2 ++ (runMonitor (runMonitor s l₁).1 l₂).2) := by
  induction l₁ with
  | nil => intro s; simp [runMonitor]
  | cons i rest ih =>
      intro s
      by_cases hs : s.stopped
      · rw [runMonitor_stopped s (i :: rest ++ l₂) hs,
          runMonitor_stopped s (i :: rest) hs, runMonitor_stopped s l₂ hs]
        rfl
      · have hs' : s.stopped = false := by simp [hs]
        by_cases hsh : i.shutdown
        · rw [List.cons_append]
          have ht := monitorTick_shutdown s i hsh
          simp only [runMonitor, hs', Bool.false_eq_true, if_false, ht]
          rw [runMonitor_stopped _ l₂ rfl]
          simp
        · have hsh' : i.shutdown = false := by simp [hsh]
          rw [List.cons_append, runMonitor_cons_step s i (rest ++ l₂) hs' hsh',
            runMonitor_cons_step s i rest hs' hsh', ih]
          simp

theorem runMonitor_no_shutdown (l : List TickInput) : ∀ s : MonState,
    s.stopped = false → (∀ j ∈ l, j.shutdown = false) →
    (runMonitor s l).1.stopped = false ∧ (runMonitor s l).2.length = l.length := by
  induction l with
  | nil => intro s hs _; simpa [runMonitor] using hs
  | cons i rest ih =>
      intro s hs h
      have hi : i.shutdown = false := h i (List.mem_cons_self _ _)
      rw [runMonitor_cons_step s i rest hs hi]
      have hs' : (monitorSample s i).1.stopped = false := by
        rw [monitorSample_stopped]; exact hs
      have := ih (monitorSample s i).1 hs' (fun j hj => h j (List.mem_cons_of_mem _ hj))
      simpa using this

theorem runMonitor_session_sum (l : List TickInput) : ∀ s : MonState,
    s.stopped = false → (∀ j ∈ l, j.shutdown = false ∧ j.reset = false) →
    (runMonitor s l).1.session_read_bytes =
        s.session_read_bytes + ((runMonitor s l).2.map Prod.fst).sum ∧
    (runMonitor s l).1.session_write_bytes =
        s.session_write_bytes + ((runMonitor s l).2.map Prod.snd).sum := by
  induction l with
  | nil => intro s _ _; simp [runMonitor]
  | cons i rest ih =>
      intro s hs h
      have hi := h i (List.mem_cons_self _ _)
      rw [runMonitor_cons_step s i rest hs hi.1]
      have hs' : (monitorSample s i).1.stopped = false := by
        rw [monitorSample_stopped]; exact hs
      have hr := ih (monitorSample s i).1 hs'
        (fun j hj => h j (List.mem_cons_of_mem _ hj))
      have hsr := monitorSample_session_read s i
      have hsw := monitorSample_session_write s i
      rw [hi.2] at hsr hsw
      simp at hsr hsw
      constructor
      · simp only [List.map_cons, List.sum_cons, hr.1, hsr]
        omega
      · simp only [List.map_cons, List.sum_cons, hr.2, hsw]
        omega

/-- C1: over any run of the monitor loop from its initial state, after the
last tick that observed the reset flag, the session read total equals the
sum of the per-tick read deltas produced from that tick on (and
symmetrically for writes): the totals are zeroed exactly at the reset
observation and accumulate every produced delta afterwards. -/
theorem C1_session_totals_are_sum_of_tick_deltas
    (pre post : List TickInput) (i : TickInput)
    (hpre : ∀ j ∈ pre, j.shutdown = false)
    (hi : i.shutdown = false) (hir : i.reset = true)
    (hpost : ∀ j ∈ post, j.shutdown = false ∧ j.reset = false) :
    (runMonitor initMonState (pre ++ i :: post)).1.session_read_bytes =
      (((runMonitor initMonState (pre ++ i :: post)).2.drop pre.length).map
        Prod.fst).sum ∧
    (runMonitor initMonState (pre ++ i :: post)).1.session_write_bytes =
      (((runMonitor initMonState (pre ++ i :: post)).2.drop pre.length).map
        Prod.snd).sum := by
  have h0 : initMonState.stopped = false := rfl
  obtain ⟨hstop1, hlen1⟩ := runMonitor_no_shutdown pre initMonState h0 hpre
  rw [runMonitor_append pre (i :: post) initMonState]
  rw [runMonitor_cons_step (runMonitor initMonState pre).1 i post hstop1 hi]
  have hs2 : (monitorSample (runMonitor initMonState pre).1 i).1.stopped = false := by
    rw [monitorSample_stopped]; exact hstop1
  have hsum := runMonitor_session_sum post
    (monitorSample (runMonitor initMonState pre).1 i).1 hs2 hpost
  have hsr := monitorSample_session_read (runMonitor initMonState pre).1 i
  have hsw := monitorSample_session_write (runMonitor initMonState pre).1 i
  rw [hir] at hsr hsw
  simp only [if_pos] at hsr hsw
  have hdrop :
      ((runMonitor initMonState pre).2 ++
        (monitorSample (runMonitor initMonState pre).1 i).2 ::
          (runMonitor (monitorSample (runMonitor initMonState pre).1 i).1 post).2).drop
        pre.length =
      (monitorSample (runMonitor initMonState pre).1 i).2 ::
        (runMonitor (monitorSample (runMonitor initMonState pre).1 i).1 post).2 := by
    rw [← hlen1, List.drop_left]
  constructor
  · simp only [hdrop, hsum.1, hsr, List.map_cons, List.sum_cons]
    omega
  · simp only [hdrop, hsum.2, hsw, List.map_cons, List.sum_cons]
    omega

theorem C1_session_totals_witness :
    (runMonitor initMonState ([] ++ c1Tick1 :: [c1Tick2])).1.session_read_bytes =
      (((runMonitor initMonState ([] ++ c1Tick1 :: [c1Tick2])).2.drop
        ([] : List TickInput).length).map Prod.fst).sum ∧
    (runMonitor initMonState ([] ++ c1Tick1 :: [c1Tick2])).1.session_write_bytes =
      (((runMonitor initMonState ([] ++ c1Tick1 :: [c1Tick2])).2.drop
        ([] : List TickInput).length).map Prod.snd).sum :=
  C1_session_totals_are_sum_of_tick_deltas [] [c1Tick2] c1Tick1
    (by simp) rfl rfl (by decide)

/-- C7 counterexample: at a flush boundary whose batch insert FAILS, the
monitor loop still clears the buffer (monitor.rs line 242 runs
unconditionally), so the 60 buffered samples are dropped, not retained for
retry as the claim states; nothing reaches the disk_stats table either. -/
theorem C7_counterexample_failed_flush_drops_buffer :
    (monitorBufferStep buf59 sampleStat false []).1 = [] ∧
    (monitorBufferStep buf59 sampleStat false []).2 = [] ∧
    buf59 ++ [sampleStat] ≠ [] := by decide

/-- C7 amended: at every flush boundary (60 buffered samples) the buffer is
cleared unconditionally; the batch reaches the disk_stats table only when
the insert succeeds, and is lost when it fails. -/
theorem C7_amended_flush_boundary_clears_buffer_unconditionally
    (buffer : List DiskStat) (stat : DiskStat) (ok : Bool) (db : List DiskStat)
    (h : 60 ≤ (buffer ++ [stat]).length) :
    (monitorBufferStep buffer stat ok db).1 = [] ∧
    (monitorBufferStep buffer stat ok db).2 =
      (if ok then db ++ (buffer ++ [stat]) else db) := by
  unfold monitorBufferStep
  rw [if_pos h]
  cases ok <;> simp

theorem C7_amended_witness :
    (monitorBufferStep buf59 sampleStat true []).1 = [] ∧
    (monitorBufferStep buf59 sampleStat true []).2 =
      (if true then [] ++ (buf59 ++ [sampleStat]) else []) :=
  C7_amended_flush_boundary_clears_buffer_unconditionally buf59 sampleStat true []
    (by decide)

/-- C8: the claim says a reset clears all accumulated in-memory state,
including the per-pid accumulator map.  The monitor.rs reset branch (lines
63-73) clears session totals, known_pids, the buffer and the dead-process
ledger, but NOT the shared accumulator map: its comment defers that to the
reset_database command, while lib.rs's reset_database only sets the signal
flag.  After a reset tick, pid 7's accumulated (100, 50) bytes survive. -/
theorem C8_reset_leaves_accumulator_map_uncleared :
    c8After.session_read_bytes = 0 ∧ c8After.session_write_bytes = 0 ∧
    c8After.dead_process_history = [] ∧ c8After.known_pids = [7] ∧
    alookup 7 c8After.accumulators = some ⟨"alpha", 100, 50⟩ := by decide

/-- C9 counterexample: on the shutdown tick the loop flushes the sample
buffer into disk_stats and stops, but the un-persisted name-keyed totals
("gamma" at (5, 3)) are NOT written to the durable per-name ledger: the
process_history table stays empty, against the claim's requirement to
persist un-flushed name-keyed deltas before stopping. -/
theorem C9_counterexample_shutdown_skips_name_ledger :
    c9After.stopped = true ∧ c9After.db_disk_stats = [⟨5, 3, 5, 3⟩] ∧
    c9After.accumulators = [(3, ⟨"gamma", 5, 3⟩)] ∧
    c9After.db_process_history = [] := by decide

/-- C9 amended: on a tick that observes the shutdown flag the loop flushes
any buffered samples to the disk_stats table (appended only when the batch
insert succeeds), stops, and consumes no further input; the stopped state
is terminal.  The durable per-name ledger is left unchanged — name-keyed
deltas are not persisted at shutdown. -/
theorem C9_amended_shutdown_flushes_buffer_and_is_terminal
    (s : MonState) (i : TickInput) (l : List TickInput)
    (hs : s.stopped = false) (hi : i.shutdown = true) :
    runMonitor s (i :: l) = ((monitorTick s i).1, []) ∧
    (monitorTick s i).1.stopped = true ∧
    (monitorTick s i).1.db_process_history = s.db_process_history ∧
    (monitorTick s i).1.db_disk_stats =
      (if s.buffer.isEmpty then s.db_disk_stats
       else if i.flush_ok then s.db_disk_stats ++ s.buffer
       else s.db_disk_stats) ∧
    runMonitor (monitorTick s i).1 l = ((monitorTick s i).1, []) := by
  have ht := monitorTick_shutdown s i hi
  refine ⟨?_, ?_, ?_, ?_, ?_⟩
  · simp only [runMonitor, hs, Bool.false_eq_true, if_false, ht]
  · rw [ht]
  · rw [ht]
  · rw [ht]
  · exact runMonitor_stopped _ l (by rw [ht])

theorem C9_amended_witness :
    runMonitor c9State (c9Input :: []) = ((monitorTick c9State c9Input).1, []) ∧
    (monitorTick c9State c9Input).1.stopped = true ∧
    (monitorTick c9State c9Input).1.db_process_history =
      c9State.db_process_history ∧
    (monitorTick c9State c9Input).1.db_disk_stats =
      (if c9State.buffer.isEmpty then c9State.db_disk_stats
       else if c9Input.flush_ok then c9State.db_disk_stats ++ c9State.buffer
       else c9State.db_disk_stats) ∧
    runMonitor (monitorTick c9State c9Input).1 [] =
      ((monitorTick c9State c9Input).1, []) :=
  C9_amended_shutdown_flushes_buffer_and_is_terminal c9State c9Input [] rfl rfl

theorem pmFoldDead_lookup_preserved (pids : List Nat) :
    ∀ (dead : List (String × (Nat × Nat))) (ls : List (Nat × (Nat × Nat)))
      (acc : List (Nat × ProcessIOAccumulator)) (p : Nat), p ∉ pids →
    alookup p (pmFoldDead dead ls acc pids).2.1 = alookup p ls ∧
    alookup p (pmFoldDead dead ls acc pids).2.2 = alookup p acc := by
  induction pids with
  | nil => intro dead ls acc p _; exact ⟨rfl, rfl⟩
  | cons q rest ih =>
      intro dead ls acc p hp
      have hqp : q ≠ p := fun h => hp (h ▸ List.mem_cons_self _ _)
      have hrest : p ∉ rest := fun h => hp (List.mem_cons_of_mem _ h)
      cases hq : alookup q acc with
      | some a =>
          simp only [pmFoldDead, hq]
          constructor
          · rw [(ih _ _ _ p hrest).1, alookup_aremove_ne p q ls hqp]
          · rw [(ih _ _ _ p hrest).2, alookup_aremove_ne p q acc hqp]
      | none =>
          simp only [pmFoldDead, hq]
          constructor
          · rw [(ih _ _ _ p hrest).1, alookup_aremove_ne p q ls hqp]
          · rw [(ih _ _ _ p hrest).2]

theorem not_mem_dead_filter (keys active : List Nat) (p : Nat) (hp : p ∈ active) :
    p ∉ keys.filter (fun q => decide (¬ q ∈ active)) := by
  intro hc
  have := List.of_mem_filter hc
  simp at this
  exact this hp

/-- Lookups at an active pid pass through pmUpdate's dead-process phase
untouched, so they can be read off the per-entry fold result. -/
theorem pmUpdate_active_lookup (s : PMState) (snap : List ProcSnap) (p : Nat)
    (hp : p ∈ snap.map (fun e => e.pid)) :
    alookup p (pmUpdate s snap).1.last_seen_by_pid =
      alookup p (snap.foldl pmUpdateEntry (s.last_seen_by_pid, s.accumulators, 0, 0)).1 ∧
    alookup p (pmUpdate s snap).1.accumulators =
      alookup p (snap.foldl pmUpdateEntry (s.last_seen_by_pid, s.accumulators, 0, 0)).2.1 := by
  have hnd := not_mem_dead_filter
    (((snap.foldl pmUpdateEntry (s.last_seen_by_pid, s.accumulators, 0, 0)).1).map Prod.fst)
    (snap.map (fun e => e.pid)) p hp
  have := pmFoldDead_lookup_preserved _ s.dead_process_history
    (snap.foldl pmUpdateEntry (s.last_seen_by_pid, s.accumulators, 0, 0)).1
    (snap.foldl pmUpdateEntry (s.last_seen_by_pid, s.accumulators, 0, 0)).2.1 p hnd
  exact ⟨this.1, this.2⟩

theorem pmUpdate_tick (s : PMState) (snap : List ProcSnap) :
    (pmUpdate s snap).2 =
      ((snap.foldl pmUpdateEntry (s.last_seen_by_pid, s.accumulators, 0, 0)).2.2.1,
       (snap.foldl pmUpdateEntry (s.last_seen_by_pid, s.accumulators, 0, 0)).2.2.2) := by
  rfl

/-- C2: a pid absent from the last_seen_by_pid baseline map (and without an
accumulator entry) that appears in the snapshot at cumulative value
(Vr, Vw) contributes 0 to that tick's deltas and gets an accumulator of
(0, 0); its baseline is recorded as (Vr, Vw), and an immediately following
update at cumulative (Cr, Cw) contributes exactly (Cr - Vr, Cw - Vw) to the
tick deltas and to the pid's accumulator. -/
theorem C2_first_observation_contributes_zero_then_exact_delta
    (s : PMState) (p : Nat) (nm : String) (x : Option String)
    (Vr Vw Cr Cw : Nat)
    (hls : alookup p s.last_seen_by_pid = none)
    (hacc : alookup p s.accumulators = none)
    (hVr : Vr ≤ Cr) (hVw : Vw ≤ Cw) :
    (pmUpdate s [⟨p, nm, x, Vr, Vw⟩]).2 = (0, 0) ∧
    alookup p (pmUpdate s [⟨p, nm, x, Vr, Vw⟩]).1.last_seen_by_pid =
      some (Vr, Vw) ∧
    alookup p (pmUpdate s [⟨p, nm, x, Vr, Vw⟩]).1.accumulators =
      some ⟨nm, 0, 0⟩ ∧
    (pmUpdate (pmUpdate s [⟨p, nm, x, Vr, Vw⟩]).1 [⟨p, nm, x, Cr, Cw⟩]).2 =
      (Cr - Vr, Cw - Vw) ∧
    alookup p
        (pmUpdate (pmUpdate s [⟨p, nm, x, Vr, Vw⟩]).1
          [⟨p, nm, x, Cr, Cw⟩]).1.accumulators =
      some ⟨nm, Cr - Vr, Cw - Vw⟩ := by
  have hmem : p ∈ ([⟨p, nm, x, Vr, Vw⟩] : List ProcSnap).map (fun e => e.pid) := by
    simp
  have hmem2 : p ∈ ([⟨p, nm, x, Cr, Cw⟩] : List ProcSnap).map (fun e => e.pid) := by
    simp
  have hl1 := pmUpdate_active_lookup s [⟨p, nm, x, Vr, Vw⟩] p hmem
  have hlsv : alookup p (pmUpdate s [⟨p, nm, x, Vr, Vw⟩]).1.last_seen_by_pid =
      some (Vr, Vw) := by
    rw [hl1.1]
    simp only [List.foldl_cons, List.foldl_nil, pmUpdateEntry, hls]
    rw [alookup_append_of_none p _ _ hls]
    simp [alookup]
  have haccv : alookup p (pmUpdate s [⟨p, nm, x, Vr, Vw⟩]).1.accumulators =
      some ⟨nm, 0, 0⟩ := by
    rw [hl1.2]
    simp only [List.foldl_cons, List.foldl_nil, pmUpdateEntry, hls]
    rw [alookup_aupsert_self, hacc]
    rfl
  have htick1 : (pmUpdate s [⟨p, nm, x, Vr, Vw⟩]).2 = (0, 0) := by
    rw [pmUpdate_tick]
    simp only [List.foldl_cons, List.foldl_nil, pmUpdateEntry, hls]
  refine ⟨htick1, hlsv, haccv, ?_, ?_⟩
  · rw [pmUpdate_tick]
    simp only [List.foldl_cons, List.foldl_nil, pmUpdateEntry, hlsv]
    by_cases hg : 0 < Cr - Vr ∨ 0 < Cw - Vw
    · simp [hg]
      omega
    · have hz : Cr - Vr = 0 ∧ Cw - Vw = 0 := by omega
      simp [hg, hz.1, hz.2]
  · have hl2 := pmUpdate_active_lookup (pmUpdate s [⟨p, nm, x, Vr, Vw⟩]).1
      [⟨p, nm, x, Cr, Cw⟩] p hmem2
    rw [hl2.2]
    simp only [List.foldl_cons, List.foldl_nil, pmUpdateEntry, hlsv]
    by_cases hg : 0 < Cr - Vr ∨ 0 < Cw - Vw
    · simp only [if_pos hg]
      rw [alookup_aupsert_self, haccv]
      simp
    · have hz : Cr - Vr = 0 ∧ Cw - Vw = 0 := by omega
      simp only [if_neg hg]
      rw [alookup_aupsert_self, haccv]
      simp [hz.1, hz.2]

/-- C3: a pid whose current cumulative counters are below its stored
baseline (a simulated counter reset) produces a per-tick delta of (0, 0) —
saturating subtraction, never negative and never a wrapped value — and its
baseline is updated to the current cumulative values. -/
theorem C3_counter_decrease_yields_zero_delta
    (s : PMState) (p : Nat) (nm : String) (x : Option String)
    (pr pw Cr Cw : Nat)
    (hls : alookup p s.last_seen_by_pid = some (pr, pw))
    (hr : Cr < pr) (hw : Cw < pw) :
    (pmUpdate s [⟨p, nm, x, Cr, Cw⟩]).2 = (0, 0) ∧
    alookup p (pmUpdate s [⟨p, nm, x, Cr, Cw⟩]).1.last_seen_by_pid =
      some (Cr, Cw) := by
  have hmem : p ∈ ([⟨p, nm, x, Cr, Cw⟩] : List ProcSnap).map (fun e => e.pid) := by
    simp
  have hr0 : Cr - pr = 0 := Nat.sub_eq_zero_of_le (Nat.le_of_lt hr)
  have hw0 : Cw - pw = 0 := Nat.sub_eq_zero_of_le (Nat.le_of_lt hw)
  constructor
  · rw [pmUpdate_tick]
    simp [pmUpdateEntry, hls, hr0, hw0]
  · have hl := pmUpdate_active_lookup s [⟨p, nm, x, Cr, Cw⟩] p hmem
    rw [hl.1]
    simp only [List.foldl_cons, List.foldl_nil, pmUpdateEntry, hls]
    simp [hr0, hw0, alookup_aupsert_self]

theorem aupsert_eq_append {K V : Type} [DecidableEq K] (k : K) (f : Option V → V)
    (l : List (K × V)) (h : alookup k l = none) :
    aupsert k f l = l ++ [(k, f none)] := by
  induction l with
  | nil => simp [aupsert]
  | cons x rest ih =>
      simp only [alookup] at h
      by_cases hx : x.1 = k
      · rw [if_pos hx] at h; cases h
      · rw [if_neg hx] at h
        rw [aupsert_cons_ne k f x rest hx, ih h]
        rfl

theorem groupedInit_append_lookup (D : List (String × (Nat × Nat))) (k : String)
    (v : Nat × Nat) :
    alookup k (groupedInit (D ++ [(k, v)])) = some (none, v.1, v.2) := by
  unfold groupedInit
  rw [List.foldl_append]
  simp only [List.foldl_cons, List.foldl_nil]
  rw [alookup_aupsert_self]

/-- C4: a process that accumulated (r, w) under pid p and disappears from
the active set is folded, on the next update, exactly additively into the
dead-process ledger under its last known name, and its accumulator and
baseline entries are removed; after a different pid q with the same name
appears (baseline tick at (ar, aw)) and then accumulates (x, y), the
grouped per-name total equals (r + x, w + y). -/
theorem C4_dead_fold_then_regroup_by_name
    (p q : Nat) (nm : String) (e : Option String)
    (r w br bw ar aw x y : Nat) (D ck : List (String × (Nat × Nat)))
    (hnz : 0 < r ∨ 0 < w) (hD : alookup nm D = none) (hpq : p ≠ q) :
    (pmUpdate (⟨D, ck, [(p, ⟨nm, r, w⟩)], [(p, (br, bw))]⟩ : PMState) []).1 =
      ⟨D ++ [(nm, (r, w))], ck, [], []⟩ ∧
    alookup nm ((pmUpdate (⟨D, ck, [(p, ⟨nm, r, w⟩)], [(p, (br, bw))]⟩ : PMState)
      []).1).dead_process_history = some (r, w) ∧
    (pmUpdate (pmUpdate (⟨D, ck, [(p, ⟨nm, r, w⟩)], [(p, (br, bw))]⟩ : PMState)
        []).1 [⟨q, nm, e, ar, aw⟩]).1 =
      ⟨D ++ [(nm, (r, w))], ck, [(q, ⟨nm, 0, 0⟩)], [(q, (ar, aw))]⟩ ∧
    pmUpdate (⟨D ++ [(nm, (r, w))], ck, [(q, ⟨nm, 0, 0⟩)], [(q, (ar, aw))]⟩ :
        PMState) [⟨q, nm, e, ar + x, aw + y⟩] =
      (⟨D ++ [(nm, (r, w))], ck, [(q, ⟨nm, x, y⟩)], [(q, (ar + x, aw + y))]⟩, x, y) ∧
    (alookup nm (groupedStats (D ++ [(nm, (r, w))]) [(q, ⟨nm, x, y⟩)]
        [⟨q, nm, e, ar + x, aw + y⟩])).map (fun t => (t.2.1, t.2.2)) =
      some (r + x, w + y) := by
  have h1 : (pmUpdate (⟨D, ck, [(p, ⟨nm, r, w⟩)], [(p, (br, bw))]⟩ : PMState) []).1 =
      ⟨D ++ [(nm, (r, w))], ck, [], []⟩ := by
    simp [pmUpdate, pmFoldDead, aremove, alookup, hnz, aupsert_eq_append, hD]
  have h2 : (pmUpdate (⟨D ++ [(nm, (r, w))], ck, [], []⟩ : PMState)
      [⟨q, nm, e, ar, aw⟩]).1 =
      ⟨D ++ [(nm, (r, w))], ck, [(q, ⟨nm, 0, 0⟩)], [(q, (ar, aw))]⟩ := by
    simp [pmUpdate, pmUpdateEntry, alookup, aupsert, pmFoldDead]
  have h3 : pmUpdate (⟨D ++ [(nm, (r, w))], ck, [(q, ⟨nm, 0, 0⟩)],
      [(q, (ar, aw))]⟩ : PMState) [⟨q, nm, e, ar + x, aw + y⟩] =
      (⟨D ++ [(nm, (r, w))], ck, [(q, ⟨nm, x, y⟩)], [(q, (ar + x, aw + y))]⟩,
        x, y) := by
    by_cases hg : 0 < x ∨ 0 < y
    · simp [pmUpdate, pmUpdateEntry, alookup, aupsert, pmFoldDead, hg]
    · have hx0 : x = 0 := by omega
      have hy0 : y = 0 := by omega
      subst hx0; subst hy0
      simp [pmUpdate, pmUpdateEntry, alookup, aupsert, pmFoldDead]
  have hg0 : alookup nm (groupedInit (D ++ [(nm, (r, w))])) = some (none, r, w) :=
    groupedInit_append_lookup D nm (r, w)
  have hdl : alookup nm (D ++ [(nm, (r, w))]) = some (r, w) := by
    rw [alookup_append_of_none nm D _ hD]
    simp [alookup]
  have h5 : (alookup nm (groupedStats (D ++ [(nm, (r, w))]) [(q, ⟨nm, x, y⟩)]
      [⟨q, nm, e, ar + x, aw + y⟩])).map (fun t => (t.2.1, t.2.2)) =
      some (r + x, w + y) := by
    by_cases hz : x = 0 ∧ y = 0
    · obtain ⟨hx, hy⟩ := hz
      subst hx; subst hy
      simp [groupedStats, groupedLive, alookup, hg0]
    · simp [groupedStats, groupedLive, alookup, hz, alookup_aupsert_self, hg0]
  exact ⟨h1, by rw [h1]; exact hdl, by rw [h1]; exact h2, h3, h5⟩

theorem C2_first_observation_witness :
    (pmUpdate (⟨[], [], [], []⟩ : PMState) [⟨1, "a", none, 10, 5⟩]).2 = (0, 0) ∧
    alookup 1 (pmUpdate (⟨[], [], [], []⟩ : PMState)
      [⟨1, "a", none, 10, 5⟩]).1.last_seen_by_pid = some (10, 5) ∧
    alookup 1 (pmUpdate (⟨[], [], [], []⟩ : PMState)
      [⟨1, "a", none, 10, 5⟩]).1.accumulators = some ⟨"a", 0, 0⟩ ∧
    (pmUpdate (pmUpdate (⟨[], [], [], []⟩ : PMState) [⟨1, "a", none, 10, 5⟩]).1
      [⟨1, "a", none, 30, 7⟩]).2 = (30 - 10, 7 - 5) ∧
    alookup 1 (pmUpdate (pmUpdate (⟨[], [], [], []⟩ : PMState)
        [⟨1, "a", none, 10, 5⟩]).1 [⟨1, "a", none, 30, 7⟩]).1.accumulators =
      some ⟨"a", 30 - 10, 7 - 5⟩ :=
  C2_first_observation_contributes_zero_then_exact_delta
    ⟨[], [], [], []⟩ 1 "a" none 10 5 30 7 rfl rfl (by decide) (by decide)

theorem C3_counter_decrease_witness :
    (pmUpdate (⟨[], [], [], [(1, (100, 50))]⟩ : PMState)
      [⟨1, "a", none, 40, 20⟩]).2 = (0, 0) ∧
    alookup 1 (pmUpdate (⟨[], [], [], [(1, (100, 50))]⟩ : PMState)
      [⟨1, "a", none, 40, 20⟩]).1.last_seen_by_pid = some (40, 20) :=
  C3_counter_decrease_yields_zero_delta
    ⟨[], [], [], [(1, (100, 50))]⟩ 1 "a" none 100 50 40 20 (by decide)
    (by decide) (by decide)

theorem C4_dead_fold_witness :
    (pmUpdate (⟨[], [], [(1, ⟨"a", 3, 0⟩)], [(1, (10, 5))]⟩ : PMState) []).1 =
      ⟨[] ++ [("a", (3, 0))], [], [], []⟩ ∧
    alookup "a" ((pmUpdate (⟨[], [], [(1, ⟨"a", 3, 0⟩)], [(1, (10, 5))]⟩ :
      PMState) []).1).dead_process_history = some (3, 0) ∧
    (pmUpdate (pmUpdate (⟨[], [], [(1, ⟨"a", 3, 0⟩)], [(1, (10, 5))]⟩ : PMState)
        []).1 [⟨2, "a", none, 100, 50⟩]).1 =
      ⟨[] ++ [("a", (3, 0))], [], [(2, ⟨"a", 0, 0⟩)], [(2, (100, 50))]⟩ ∧
    pmUpdate (⟨[] ++ [("a", (3, 0))], [], [(2, ⟨"a", 0, 0⟩)], [(2, (100, 50))]⟩ :
        PMState) [⟨2, "a", none, 100 + 4, 50 + 6⟩] =
      (⟨[] ++ [("a", (3, 0))], [], [(2, ⟨"a", 4, 6⟩)], [(2, (100 + 4, 50 + 6))]⟩,
        4, 6) ∧
    (alookup "a" (groupedStats ([] ++ [("a", (3, 0))]) [(2, ⟨"a", 4, 6⟩)]
        [⟨2, "a", none, 100 + 4, 50 + 6⟩])).map (fun t => (t.2.1, t.2.2)) =
      some (3 + 4, 0 + 6) :=
  C4_dead_fold_then_regroup_by_name 1 2 "a" none 3 0 10 5 100 50 4 6 [] []
    (by decide) rfl (by decide)

theorem groupedInit_values_pos (dead : List (String × (Nat × Nat))) :
    ∀ g : List (String × (Option String × Nat × Nat)),
    (∀ z ∈ dead, 0 < z.2.1 ∨ 0 < z.2.2) →
    (∀ z ∈ g, 0 < z.2.2.1 + z.2.2.2) →
    ∀ z ∈ dead.foldl (fun g x => aupsert x.1 (fun _ => (none, x.2.1, x.2.2)) g) g,
      0 < z.2.2.1 + z.2.2.2 := by
  induction dead with
  | nil => intro g _ hg z hz; exact hg z hz
  | cons d rest ih =>
      intro g hd hg z hz
      simp only [List.foldl_cons] at hz
      refine ih _ (fun z' hz' => hd z' (List.mem_cons_of_mem _ hz')) ?_ z hz
      intro z' hz'
      rcases mem_aupsert _ _ _ _ hz' with h | ⟨o, rfl⟩
      · exact hg z' h
      · have := hd d (List.mem_cons_self _ _)
        simp only
        omega

theorem groupedLive_values_pos (acc : List (Nat × ProcessIOAccumulator))
    (snap : List ProcSnap) :
    ∀ g : List (String × (Option String × Nat × Nat)),
    (∀ z ∈ g, 0 < z.2.2.1 + z.2.2.2) →
    ∀ z ∈ groupedLive acc snap g, 0 < z.2.2.1 + z.2.2.2 := by
  induction snap with
  | nil => intro g hg z hz; exact hg z hz
  | cons e rest ih =>
      intro g hg z hz
      simp only [groupedLive, List.foldl_cons] at hz
      cases halk : alookup e.pid acc with
      | none =>
          simp only [halk] at hz
          exact ih g hg z hz
      | some a =>
          simp only [halk] at hz
          by_cases hza : a.read_bytes = 0 ∧ a.write_bytes = 0
          · rw [if_pos hza] at hz
            exact ih g hg z hz
          · rw [if_neg hza] at hz
            refine ih _ ?_ z hz
            intro z' hz'
            rcases mem_aupsert _ _ _ _ hz' with h | ⟨o, rfl⟩
            · exact hg z' h
            · cases o with
              | none => simp only; omega
              | some t => simp only; omega

theorem rawStats_total_pos (dead : List (String × (Nat × Nat)))
    (acc : List (Nat × ProcessIOAccumulator)) (snap : List ProcSnap)
    (hd : ∀ v ∈ dead, 0 < v.2.1 ∨ 0 < v.2.2) :
    ∀ st ∈ rawStats dead acc snap, 0 < st.total_bytes := by
  intro st hst
  unfold rawStats at hst
  rcases List.mem_map.mp hst with ⟨z, hz, rfl⟩
  have := groupedLive_values_pos acc snap (groupedInit dead)
    (groupedInit_values_pos dead [] hd (by simp)) z hz
  simpa using this

theorem rawStats_total_split (dead : List (String × (Nat × Nat)))
    (acc : List (Nat × ProcessIOAccumulator)) (snap : List ProcSnap) :
    ∀ st ∈ rawStats dead acc snap,
      st.total_bytes = st.read_bytes + st.write_bytes := by
  intro st hst
  rcases List.mem_map.mp hst with ⟨z, _, rfl⟩
  rfl

/-- C10: every entry of get_top_processes has strictly positive
total_bytes, provided every dead-ledger value has a positive component
(the invariant ProcessMonitor::update maintains, since it only folds in
accumulators with a nonzero component): zero-byte live accumulators are
skipped during grouping and the "Others" entry is only pushed when
nonzero. -/
theorem C10_top_processes_entries_positive (dead : List (String × (Nat × Nat)))
    (acc : List (Nat × ProcessIOAccumulator)) (snap : List ProcSnap)
    (hd : ∀ v ∈ dead, 0 < v.2.1 ∨ 0 < v.2.2) :
    ∀ st ∈ getTopProcesses dead acc snap, 0 < st.total_bytes := by
  intro st hst
  have hsorted : ∀ z ∈ sortedStats dead acc snap, 0 < z.total_bytes := by
    intro z hz
    exact rawStats_total_pos dead acc snap hd z
      ((List.perm_insertionSort _ _).mem_iff.mp hz)
  simp only [getTopProcesses] at hst
  split at hst
  · split at hst
    · rcases List.mem_append.mp hst with h3 | h3
      · exact hsorted st (List.mem_of_mem_take h3)
      · rw [List.mem_singleton] at h3
        subst h3
        simp only
        rename_i hnz _
        omega
    · exact hsorted st (List.mem_of_mem_take hst)
  · exact hsorted st hst

theorem drop_eq_singleton_of_length {α : Type} (l : List α) (a : α) (n : Nat)
    (h : l.length = n) : (l ++ [a]).drop n = [a] := by
  subst h
  exact List.drop_left l [a]

theorem drop_eq_nil_of_length {α : Type} (l : List α) (n : Nat)
    (h : l.length = n) : l.drop n = [] := by
  subst h
  exact List.drop_length l

theorem sum_total_eq_read_add_write (l : List ProcessIOStat)
    (h : ∀ z ∈ l, z.total_bytes = z.read_bytes + z.write_bytes) :
    (l.map (fun s => s.total_bytes)).sum =
      (l.map (fun s => s.read_bytes)).sum +
        (l.map (fun s => s.write_bytes)).sum := by
  induction l with
  | nil => simp
  | cons a rest ih =>
      simp only [List.map_cons, List.sum_cons]
      rw [h a (List.mem_cons_self _ _),
        ih (fun z hz => h z (List.mem_cons_of_mem _ hz))]
      omega

theorem sortedStats_total_split (dead : List (String × (Nat × Nat)))
    (acc : List (Nat × ProcessIOAccumulator)) (snap : List ProcSnap) :
    ∀ st ∈ sortedStats dead acc snap,
      st.total_bytes = st.read_bytes + st.write_bytes := by
  intro st hst
  exact rawStats_total_split dead acc snap st
    ((List.perm_insertionSort _ _).mem_iff.mp hst)

/-- C5: whenever the top-N report truncates (more than 50 grouped rows),
the total_bytes of the emitted report — kept rows plus the synthesized
"Others" entry — sums exactly to the grand total over all grouped rows,
and anything beyond the 50 kept rows is an "Others" entry with strictly
positive total ("Others" is emitted only when nonzero). -/
theorem C5_truncated_report_sums_to_grand_total
    (dead : List (String × (Nat × Nat)))
    (acc : List (Nat × ProcessIOAccumulator)) (snap : List ProcSnap)
    (htr : 50 < (rawStats dead acc snap).length) :
    ((getTopProcesses dead acc snap).map (fun st => st.total_bytes)).sum =
      ((rawStats dead acc snap).map (fun st => st.total_bytes)).sum ∧
    ∀ st ∈ (getTopProcesses dead acc snap).drop 50,
      st.name = "Others" ∧ 0 < st.total_bytes := by
  have hperm : (sortedStats dead acc snap).Perm (rawStats dead acc snap) :=
    List.perm_insertionSort _ _
  have hlt : 50 < (sortedStats dead acc snap).length := by
    rw [hperm.length_eq]; exact htr
  have hkl : ((sortedStats dead acc snap).take 50).length = 50 := by
    rw [List.length_take]
    omega
  -- read and write sums over kept and dropped rows
  have hR : ((sortedStats dead acc snap).map (fun s => s.read_bytes)).sum =
      (((sortedStats dead acc snap).take 50).map (fun s => s.read_bytes)).sum +
      (((sortedStats dead acc snap).drop 50).map (fun s => s.read_bytes)).sum := by
    rw [List.map_take, List.map_drop, List.sum_take_add_sum_drop]
  have hW : ((sortedStats dead acc snap).map (fun s => s.write_bytes)).sum =
      (((sortedStats dead acc snap).take 50).map (fun s => s.write_bytes)).sum +
      (((sortedStats dead acc snap).drop 50).map (fun s => s.write_bytes)).sum := by
    rw [List.map_take, List.map_drop, List.sum_take_add_sum_drop]
  have hoR : othersRead dead acc snap =
      (((sortedStats dead acc snap).drop 50).map (fun s => s.read_bytes)).sum := by
    unfold othersRead
    omega
  have hoW : othersWrite dead acc snap =
      (((sortedStats dead acc snap).drop 50).map (fun s => s.write_bytes)).sum := by
    unfold othersWrite
    omega
  -- total sums split into read + write over each sublist
  have hsplit := sortedStats_total_split dead acc snap
  have hTS : ((sortedStats dead acc snap).map (fun s => s.total_bytes)).sum =
      ((sortedStats dead acc snap).map (fun s => s.read_bytes)).sum +
      ((sortedStats dead acc snap).map (fun s => s.write_bytes)).sum :=
    sum_total_eq_read_add_write _ hsplit
  have hTK : (((sortedStats dead acc snap).take 50).map (fun s => s.total_bytes)).sum =
      (((sortedStats dead acc snap).take 50).map (fun s => s.read_bytes)).sum +
      (((sortedStats dead acc snap).take 50).map (fun s => s.write_bytes)).sum :=
    sum_total_eq_read_add_write _
      (fun z hz => hsplit z (List.mem_of_mem_take hz))
  have hTL : ((sortedStats dead acc snap).map (fun s => s.total_bytes)).sum =
      ((rawStats dead acc snap).map (fun s => s.total_bytes)).sum :=
    (hperm.map _).sum_eq
  simp only [getTopProcesses]
  rw [if_pos hlt]
  by_cases ho : 0 < othersRead dead acc snap ∨ 0 < othersWrite dead acc snap
  · rw [if_pos ho]
    constructor
    · rw [List.map_append, List.sum_append]
      simp only [List.map_cons, List.map_nil, List.sum_cons, List.sum_nil]
      omega
    · intro st hst
      have : ((sortedStats dead acc snap).take 50 ++
          [(⟨0, "Others", none, othersRead dead acc snap,
            othersWrite dead acc snap,
            othersRead dead acc snap + othersWrite dead acc snap⟩ :
            ProcessIOStat)]).drop 50 =
          [⟨0, "Others", none, othersRead dead acc snap,
            othersWrite dead acc snap,
            othersRead dead acc snap + othersWrite dead acc snap⟩] :=
        drop_eq_singleton_of_length _ _ 50 hkl
      rw [this, List.mem_singleton] at hst
      subst hst
      refine ⟨rfl, ?_⟩
      simp only
      omega
  · rw [if_neg ho]
    have hz : othersRead dead acc snap = 0 ∧ othersWrite dead acc snap = 0 := by
      omega
    constructor
    · omega
    · intro st hst
      have : ((sortedStats dead acc snap).take 50).drop 50 = [] :=
        drop_eq_nil_of_length _ 50 hkl
      rw [this] at hst
      cases hst

theorem C5_truncated_report_witness :
    ((getTopProcesses c5Dead [] []).map (fun st => st.total_bytes)).sum =
      ((rawStats c5Dead [] []).map (fun st => st.total_bytes)).sum ∧
    ∀ st ∈ (getTopProcesses c5Dead [] []).drop 50,
      st.name = "Others" ∧ 0 < st.total_bytes :=
  C5_truncated_report_sums_to_grand_total c5Dead [] [] (by decide)

theorem C10_top_processes_witness :
    0 < (⟨0, "a", none, 1, 0, 1⟩ : ProcessIOStat).total_bytes :=
  C10_top_processes_entries_positive [("a", (1, 0))] [] [] (by decide)
    ⟨0, "a", none, 1, 0, 1⟩ (by decide)

theorem alookup_append_singleton_ne {K V : Type} [DecidableEq K] (k k' : K)
    (v : V) (l : List (K × V)) (h : k' ≠ k) :
    alookup k (l ++ [(k', v)]) = alookup k l := by
  rw [alookup_append]
  cases hl : alookup k l with
  | some w => rfl
  | none => simp [alookup, h]

theorem flushNameStep_lookup_ne
    (st : List (String × (Nat × Nat)) × List (String × (Nat × Nat)))
    (x : String × (Nat × Nat)) (k : String) (hk : x.1 ≠ k) :
    alookup k (flushNameStep st x).1 = alookup k st.1 ∧
    alookup k (flushNameStep st x).2 = alookup k st.2 := by
  unfold flushNameStep
  cases hsn : alookup x.1 st.1 with
  | some c =>
      simp only [hsn]
      split
      · exact ⟨alookup_aupsert_ne k x.1 _ st.1 hk, alookup_aupsert_ne k x.1 _ st.2 hk⟩
      · exact ⟨rfl, rfl⟩
  | none =>
      simp only [hsn]
      split
      · constructor
        · rw [alookup_aupsert_ne k x.1 _ _ hk, alookup_append_singleton_ne k x.1 _ _ hk]
        · exact alookup_aupsert_ne k x.1 _ st.2 hk
      · exact ⟨alookup_append_singleton_ne k x.1 _ _ hk, rfl⟩

theorem flushFold_lookup_ne (L : List (String × (Nat × Nat))) (k : String)
    (hL : ∀ x ∈ L, x.1 ≠ k) :
    ∀ st : List (String × (Nat × Nat)) × List (String × (Nat × Nat)),
    alookup k (L.foldl flushNameStep st).1 = alookup k st.1 ∧
    alookup k (L.foldl flushNameStep st).2 = alookup k st.2 := by
  induction L with
  | nil => intro st; exact ⟨rfl, rfl⟩
  | cons x rest ih =>
      intro st
      simp only [List.foldl_cons]
      have hx := flushNameStep_lookup_ne st x k (hL x (List.mem_cons_self _ _))
      have hr := ih (fun z hz => hL z (List.mem_cons_of_mem _ hz)) (flushNameStep st x)
      exact ⟨hr.1.trans hx.1, hr.2.trans hx.2⟩

theorem flushNameStep_self
    (st : List (String × (Nat × Nat)) × List (String × (Nat × Nat)))
    (nm : String) (cr cw : Nat)
    (hm1 : ((alookup nm st.1).getD (0, 0)).1 ≤ cr)
    (hm2 : ((alookup nm st.1).getD (0, 0)).2 ≤ cw) :
    alookup nm (flushNameStep st (nm, (cr, cw))).1 = some (cr, cw) ∧
    alookup nm (flushNameStep st (nm, (cr, cw))).2 =
      (if cr = ((alookup nm st.1).getD (0, 0)).1 ∧
          cw = ((alookup nm st.1).getD (0, 0)).2
       then alookup nm st.2
       else some (cr - ((alookup nm st.1).getD (0, 0)).1,
                  cw - ((alookup nm st.1).getD (0, 0)).2)) := by
  unfold flushNameStep
  cases hsn : alookup nm st.1 with
  | some c =>
      simp only [hsn, Option.getD_some] at hm1 hm2 ⊢
      by_cases hg : 0 < cr - c.1 ∨ 0 < cw - c.2
      · rw [if_pos hg]
        have hne : ¬ (cr = c.1 ∧ cw = c.2) := by omega
        rw [if_neg hne]
        exact ⟨by rw [alookup_aupsert_self], by rw [alookup_aupsert_self]⟩
      · rw [if_neg hg]
        have heq : cr = c.1 ∧ cw = c.2 := by omega
        rw [if_pos heq]
        refine ⟨?_, rfl⟩
        rw [hsn, heq.1, heq.2]
  | none =>
      simp only [hsn, Option.getD_none] at hm1 hm2 ⊢
      by_cases hg : 0 < cr - 0 ∨ 0 < cw - 0
      · rw [if_pos hg]
        have hne : ¬ (cr = 0 ∧ cw = 0) := by omega
        rw [if_neg hne]
        constructor
        · rw [alookup_aupsert_self]
        · rw [alookup_aupsert_self]
      · rw [if_neg hg]
        have heq : cr = 0 ∧ cw = 0 := by omega
        rw [if_pos heq]
        refine ⟨?_, rfl⟩
        rw [alookup_append, hsn, heq.1, heq.2]
        simp [alookup]

theorem flushFold_self (L : List (String × (Nat × Nat))) (nm : String)
    (cr cw : Nat) (hnd : (L.map Prod.fst).Nodup)
    (hL : alookup nm L = some (cr, cw))
    (st : List (String × (Nat × Nat)) × List (String × (Nat × Nat)))
    (hm1 : ((alookup nm st.1).getD (0, 0)).1 ≤ cr)
    (hm2 : ((alookup nm st.1).getD (0, 0)).2 ≤ cw) :
    alookup nm (L.foldl flushNameStep st).1 = some (cr, cw) ∧
    alookup nm (L.foldl flushNameStep st).2 =
      (if cr = ((alookup nm st.1).getD (0, 0)).1 ∧
          cw = ((alookup nm st.1).getD (0, 0)).2
       then alookup nm st.2
       else some (cr - ((alookup nm st.1).getD (0, 0)).1,
                  cw - ((alookup nm st.1).getD (0, 0)).2)) := by
  rcases alookup_some_split L hnd hL with ⟨L₁, L₂, rfl, h₁, h₂⟩
  rw [List.foldl_append, List.foldl_cons]
  have hpre := flushFold_lookup_ne L₁ nm h₁ st
  have hstep := flushNameStep_self (L₁.foldl flushNameStep st) nm cr cw
    (by rw [hpre.1]; exact hm1) (by rw [hpre.1]; exact hm2)
  have hpost := flushFold_lookup_ne L₂ nm h₂
    (flushNameStep (L₁.foldl flushNameStep st) (nm, (cr, cw)))
  constructor
  · rw [hpost.1, hstep.1]
  · rw [hpost.2, hstep.2, hpre.1, hpre.2]

theorem currentTotals_keys_nodup_aux (acc : List (Nat × ProcessIOAccumulator)) :
    ∀ m : List (String × (Nat × Nat)), (m.map Prod.fst).Nodup →
    ((acc.foldl currentTotalsStep m).map Prod.fst).Nodup := by
  induction acc with
  | nil => intro m hm; exact hm
  | cons x rest ih =>
      intro m hm
      simp only [List.foldl_cons]
      exact ih _ (keys_nodup_aupsert _ _ _ hm)

theorem currentTotals_keys_nodup (s : PMState)
    (h : (s.dead_process_history.map Prod.fst).Nodup) :
    ((currentTotals s).map Prod.fst).Nodup :=
  currentTotals_keys_nodup_aux s.accumulators s.dead_process_history h

theorem flushFold_deltas_keys_nodup (L : List (String × (Nat × Nat))) :
    ∀ st : List (String × (Nat × Nat)) × List (String × (Nat × Nat)),
    (st.2.map Prod.fst).Nodup →
    (((L.foldl flushNameStep st).2).map Prod.fst).Nodup := by
  induction L with
  | nil => intro st h; exact h
  | cons x rest ih =>
      intro st h
      simp only [List.foldl_cons]
      refine ih (flushNameStep st x) ?_
      unfold flushNameStep
      cases hsn : alookup x.1 st.1 with
      | some c =>
          simp only [hsn]
          split
          · exact keys_nodup_aupsert _ _ _ h
          · exact h
      | none =>
          simp only [hsn]
          split
          · exact keys_nodup_aupsert _ _ _ h
          · exact h

theorem update_process_history_lookup_none (stats : List (String × (Nat × Nat)))
    (nm : String) (hm : ∀ x ∈ stats, x.1 ≠ nm) :
    ∀ db : List (String × (Nat × Nat)),
    alookup nm (update_process_history db stats) = alookup nm db := by
  induction stats with
  | nil => intro db; rfl
  | cons x rest ih =>
      intro db
      unfold update_process_history
      simp only [List.foldl_cons]
      have := ih (fun z hz => hm z (List.mem_cons_of_mem _ hz))
        (aupsert x.1 (fun o =>
          let p := o.getD (0, 0)
          (p.1 + x.2.1, p.2 + x.2.2)) db)
      unfold update_process_history at this
      rw [this, alookup_aupsert_ne nm x.1 _ db (hm x (List.mem_cons_self _ _))]

theorem update_process_history_lookup_some (stats : List (String × (Nat × Nat)))
    (nm : String) (dr dw : Nat) (hnd : (stats.map Prod.fst).Nodup)
    (h : alookup nm stats = some (dr, dw)) :
    ∀ db : List (String × (Nat × Nat)),
    alookup nm (update_process_history db stats) =
      some (((alookup nm db).getD (0, 0)).1 + dr,
        ((alookup nm db).getD (0, 0)).2 + dw) := by
  intro db
  rcases alookup_some_split stats hnd h with ⟨L₁, L₂, rfl, h₁, h₂⟩
  unfold update_process_history
  rw [List.foldl_append, List.foldl_cons]
  have hpre := update_process_history_lookup_none L₁ nm h₁ db
  unfold update_process_history at hpre
  have hpost := update_process_history_lookup_none L₂ nm h₂
    (aupsert nm (fun o =>
      let p := o.getD (0, 0)
      (p.1 + dr, p.2 + dw)) (L₁.foldl (fun d x =>
        aupsert x.1 (fun o =>
          let p := o.getD (0, 0)
          (p.1 + x.2.1, p.2 + x.2.2)) d) db))
  unfold update_process_history at hpost
  rw [hpost, alookup_aupsert_self, hpre]

/-- C6: for a name whose current grouped total is (cr, cw) and whose
persistence checkpoint (default (0,0) for never-flushed names) is at most
the current total componentwise — the reachable regime, since per-name
totals only grow between flushes — get_deltas_for_db emits exactly the
difference (omitting it when zero), advances the checkpoint to the current
total, and update_process_history merges the difference additively into
the durable ledger (stored = stored + delta, never overwrite); flushing
again immediately emits nothing for that name, so repeated flushes persist
each byte at most once. -/
theorem C6_flush_merges_checkpoint_deltas_additively
    (s : PMState) (nm : String) (cr cw : Nat)
    (hnd : (s.dead_process_history.map Prod.fst).Nodup)
    (hcur : alookup nm (currentTotals s) = some (cr, cw))
    (hm1 : ((alookup nm s.last_process_snapshot).getD (0, 0)).1 ≤ cr)
    (hm2 : ((alookup nm s.last_process_snapshot).getD (0, 0)).2 ≤ cw) :
    alookup nm (getDeltasForDb s).1 =
      (if cr = ((alookup nm s.last_process_snapshot).getD (0, 0)).1 ∧
          cw = ((alookup nm s.last_process_snapshot).getD (0, 0)).2
       then none
       else some (cr - ((alookup nm s.last_process_snapshot).getD (0, 0)).1,
                  cw - ((alookup nm s.last_process_snapshot).getD (0, 0)).2)) ∧
    alookup nm (getDeltasForDb s).2.last_process_snapshot = some (cr, cw) ∧
    (∀ db : List (String × (Nat × Nat)),
      (alookup nm (update_process_history db (getDeltasForDb s).1)).getD (0, 0) =
        (((alookup nm db).getD (0, 0)).1 +
            (cr - ((alookup nm s.last_process_snapshot).getD (0, 0)).1),
         ((alookup nm db).getD (0, 0)).2 +
            (cw - ((alookup nm s.last_process_snapshot).getD (0, 0)).2))) ∧
    alookup nm (getDeltasForDb (getDeltasForDb s).2).1 = none := by
  have hndc := currentTotals_keys_nodup s hnd
  have hmain := flushFold_self (currentTotals s) nm cr cw hndc hcur
    (s.last_process_snapshot, []) hm1 hm2
  have hdelta : alookup nm (getDeltasForDb s).1 =
      (if cr = ((alookup nm s.last_process_snapshot).getD (0, 0)).1 ∧
          cw = ((alookup nm s.last_process_snapshot).getD (0, 0)).2
       then none
       else some (cr - ((alookup nm s.last_process_snapshot).getD (0, 0)).1,
                  cw - ((alookup nm s.last_process_snapshot).getD (0, 0)).2)) := by
    have h2 := hmain.2
    simp only [alookup] at h2
    exact h2
  refine ⟨hdelta, hmain.1, ?_, ?_⟩
  · intro db
    by_cases hEq : cr = ((alookup nm s.last_process_snapshot).getD (0, 0)).1 ∧
        cw = ((alookup nm s.last_process_snapshot).getD (0, 0)).2
    · have hnone : alookup nm (getDeltasForDb s).1 = none := by
        rw [hdelta, if_pos hEq]
      have hkeys := (alookup_eq_none_iff nm (getDeltasForDb s).1).mp hnone
      rw [update_process_history_lookup_none (getDeltasForDb s).1 nm hkeys db]
      have hz1 : cr - ((alookup nm s.last_process_snapshot).getD (0, 0)).1 = 0 := by
        omega
      have hz2 : cw - ((alookup nm s.last_process_snapshot).getD (0, 0)).2 = 0 := by
        omega
      rw [hz1, hz2]
      cases hdb : alookup nm db with
      | none => rfl
      | some v => simp
    · have hsome : alookup nm (getDeltasForDb s).1 =
          some (cr - ((alookup nm s.last_process_snapshot).getD (0, 0)).1,
            cw - ((alookup nm s.last_process_snapshot).getD (0, 0)).2) := by
        rw [hdelta, if_neg hEq]
      have hdnd : (((getDeltasForDb s).1).map Prod.fst).Nodup :=
        flushFold_deltas_keys_nodup (currentTotals s)
          (s.last_process_snapshot, []) (by simp)
      rw [update_process_history_lookup_some (getDeltasForDb s).1 nm _ _ hdnd
        hsome db]
      rfl
  · have hmain2 := flushFold_self (currentTotals s) nm cr cw hndc hcur
      (((currentTotals s).foldl flushNameStep (s.last_process_snapshot, [])).1, [])
      (by rw [hmain.1]; exact Nat.le_refl cr)
      (by rw [hmain.1]; exact Nat.le_refl cw)
    have h2 := hmain2.2
    rw [hmain.1] at h2
    simp only [Option.getD_some, and_self, if_true, alookup] at h2
    exact h2

theorem C6_flush_witness :
    alookup "n" (getDeltasForDb c6State).1 =
      (if (10 : Nat) = ((alookup "n" c6State.last_process_snapshot).getD (0, 0)).1 ∧
          (3 : Nat) = ((alookup "n" c6State.last_process_snapshot).getD (0, 0)).2
       then none
       else some (10 - ((alookup "n" c6State.last_process_snapshot).getD (0, 0)).1,
                  3 - ((alookup "n" c6State.last_process_snapshot).getD (0, 0)).2)) ∧
    alookup "n" (getDeltasForDb c6State).2.last_process_snapshot = some (10, 3) ∧
    (∀ db : List (String × (Nat × Nat)),
      (alookup "n" (update_process_history db (getDeltasForDb c6State).1)).getD
          (0, 0) =
        (((alookup "n" db).getD (0, 0)).1 +
            (10 - ((alookup "n" c6State.last_process_snapshot).getD (0, 0)).1),
         ((alookup "n" db).getD (0, 0)).2 +
            (3 - ((alookup "n" c6State.last_process_snapshot).getD (0, 0)).2))) ∧
    alookup "n" (getDeltasForDb (getDeltasForDb c6State).2).1 = none :=
  C6_flush_merges_checkpoint_deltas_additively c6State "n" 10 3 (by decide)
    (by decide) (by decide) (by decide)
